import Mathlib

/-!
Verification of the workflow stage-chaining system: a shallow embedding of
the completion-signal detector (`src/shared/workflow_utils.js`), the
instance-id/session-name conversions, and the chain keyword monitor
(`src/unnamed/part_002`, class `ChainKeywordMonitor`), with theorems
settling the specification claims.

JavaScript strings are modelled as `List Char` (`JStr`); JS string methods
(`trim`, `includes`, `startsWith`, `endsWith`, `lastIndexOf`, `slice`,
`split`, first-occurrence `replace`) are modelled by the corresponding
list functions below.  Integers that index strings are `Nat`/`Int`.
-/

set_option maxRecDepth 4000

namespace WorkflowsProof

/-- JavaScript strings, modelled as lists of characters (UTF-16 units of the
claims' strings are all single code points, so code-point lists agree). -/
abbrev JStr := List Char

/-- Whitespace characters per the JavaScript `\s` class and
`String.prototype.trim` (space, tab, LF, VT, FF, CR, NBSP, Unicode space
separators, LS, PS, NNBSP, MMSP, ideographic space, BOM). -/
def isJsWs (c : Char) : Bool :=
  [' ', '\t', '\n', '\x0b', '\x0c', '\r', '\u00A0', '\u1680',
   '\u2000', '\u2001', '\u2002', '\u2003', '\u2004', '\u2005', '\u2006',
   '\u2007', '\u2008', '\u2009', '\u200A', '\u2028', '\u2029', '\u202F',
   '\u205F', '\u3000', '\uFEFF'].contains c

/-- Model of `String.prototype.trim`: drop whitespace from both ends. -/
def jsTrim (l : JStr) : JStr :=
  ((l.dropWhile isJsWs).reverse.dropWhile isJsWs).reverse

/-- Model of `s.startsWith(pat)`. -/
def jsStartsWith (s pat : JStr) : Bool := pat.isPrefixOf s

/-- Model of `s.endsWith(pat)`. -/
def jsEndsWith (s pat : JStr) : Bool := pat.isSuffixOf s

/-- Model of `s.includes(pat)`: `pat` occurs as a contiguous substring. -/
def jsIncludes (s pat : JStr) : Bool := decide (pat <:+: s)

/-- All offsets at which `pat` occurs in `s`, in increasing order. -/
def occIdx (s pat : JStr) : List Nat :=
  (List.range (s.length + 1)).filter (fun i => pat.isPrefixOf (s.drop i))

/-- Model of `s.indexOf(pat)` restricted to found results: the least
occurrence offset, if any. -/
def firstIndexOf? (s pat : JStr) : Option Nat := (occIdx s pat).head?

/-- Model of `s.lastIndexOf(pat)` restricted to found results: the greatest
occurrence offset, if any. -/
def lastIndexOf? (s pat : JStr) : Option Nat := (occIdx s pat).getLast?

/-- Model of `s.replace(pat, repl)` with a string pattern: replaces the
first occurrence only (JS semantics), or returns `s` unchanged. -/
def jsReplaceFirst (s pat repl : JStr) : JStr :=
  match firstIndexOf? s pat with
  | none => s
  | some i => s.take i ++ repl ++ s.drop (i + pat.length)

/-- Model of `s.slice(-n)`: the trailing window of at most `n` characters. -/
def jsSliceLast (n : Nat) (l : JStr) : JStr := l.drop (l.length - n)

/-!
The completion-signal detector `isActualCompletionSignal(line, keyword)`
from `src/shared/workflow_utils.js` lines 19-57.
-/

/-- The `ignoredPatterns` array of `isActualCompletionSignal`
(workflow_utils.js lines 23-29), in source order; six entries depend on the
keyword. -/
def ignoredPatterns (keyword : JStr) : List JStr :=
  ["☐".toList, "□".toList, "⎿".toList, "Document".toList,
   "signal completion".toList,
   "with ".toList ++ keyword, "and ".toList ++ keyword,
   "using ".toList ++ keyword, "say ".toList ++ keyword,
   "Say ".toList ++ keyword, "type ".toList ++ keyword,
   "Execute step".toList, "Step ".toList, "execute it".toList,
   "plan:".toList, "todo list".toList, "Create".toList, "Analyze".toList,
   "then execute".toList, ": Say".toList, ". Say".toList, "Let me".toList,
   "I need to".toList, "I will".toList, "I should".toList]

/-- The keyword-independent entries of `ignoredPatterns` (all entries except
the six built by concatenating onto the keyword). -/
def fixedIgnoredPatterns : List JStr :=
  ["☐".toList, "□".toList, "⎿".toList, "Document".toList,
   "signal completion".toList,
   "Execute step".toList, "Step ".toList, "execute it".toList,
   "plan:".toList, "todo list".toList, "Create".toList, "Analyze".toList,
   "then execute".toList, ": Say".toList, ". Say".toList, "Let me".toList,
   "I need to".toList, "I will".toList, "I should".toList]

/-- Model of `trimmedLine.match(/^\d+\./)` being non-null: one or more
leading ASCII digits followed by a period. -/
def numberedListStart (l : JStr) : Bool :=
  let ds := l.takeWhile Char.isDigit
  !ds.isEmpty && ((l.drop ds.length).take 1 == ['.'])

/-- Model of `trimmedLine.replace(/^⏺\s*/, '')`: strip one leading Claude
marker character and any whitespace after it. -/
def stripClaudeMarker : JStr → JStr
  | '⏺' :: rest => rest.dropWhile isJsWs
  | l => l

/-- Model of `new RegExp('^' + escaped(keyword) + '\S*$').test(l)`: the
escaping makes the keyword a literal, so the regex accepts exactly the
strings that start with the keyword and continue with non-whitespace only. -/
def anchoredColonTest (keyword l : JStr) : Bool :=
  keyword.isPrefixOf l && (l.drop keyword.length).all (fun c => !isJsWs c)

/-- The Claude status marker prefix `"⏺ "` used in the exact-match branch. -/
def claudeMarker : JStr := ['⏺', ' ']

/-- Embedding of `isActualCompletionSignal(line, keyword)`
(workflow_utils.js lines 19-57): reject lines containing any ignored
pattern, reject numbered-list lines, then accept per the colon-keyword
regex or the standalone/marker-prefixed equality checks.
`trimmedLine.length < keyword.length + 10` is the source's length bound. -/
def isActualCompletionSignal (line keyword : JStr) : Bool :=
  let trimmedLine := jsTrim line
  if (ignoredPatterns keyword).any (fun p => jsIncludes trimmedLine p) then
    false
  else if numberedListStart trimmedLine then
    false
  else if jsEndsWith keyword [':'] then
    anchoredColonTest keyword trimmedLine ||
    anchoredColonTest keyword (stripClaudeMarker trimmedLine)
  else
    trimmedLine == keyword ||
    trimmedLine == claudeMarker ++ keyword ||
    (jsStartsWith trimmedLine ['⏺'] && jsEndsWith trimmedLine keyword &&
      trimmedLine.length < keyword.length + 10)

/-!
Instance-id / session-name conversions (workflow_utils.js lines 144-173).
-/

/-- Embedding of `normalizeInstanceId` (workflow_utils.js lines 144-154). -/
def normalizeInstanceId (instanceId : JStr) : JStr :=
  if !jsIncludes instanceId ['_'] ||
     (!jsStartsWith instanceId ("auto_".toList) &&
      !jsStartsWith instanceId ("spec_".toList)) then
    instanceId
  else
    "claude_".toList ++ instanceId

/-- Embedding of `instanceIdToSessionName` (workflow_utils.js lines
160-162): an alias of `normalizeInstanceId`. -/
def instanceIdToSessionName (instanceId : JStr) : JStr :=
  normalizeInstanceId instanceId

/-- Embedding of `sessionNameToInstanceId` (workflow_utils.js lines
168-173): strip the first occurrence of `"claude_"` when the name starts
with it (JS `replace` replaces the first occurrence). -/
def sessionNameToInstanceId (sessionName : JStr) : JStr :=
  if jsStartsWith sessionName ("claude_".toList) then
    jsReplaceFirst sessionName ("claude_".toList) []
  else
    sessionName

/-!
The retrying dispatcher `sendInstructionWithRetry` (part_002 lines
346-372).  The terminal channel is modelled as a function from the attempt
number (1-based) to whether that attempt is reported successful; a
`sendToInstance` result with `success: false` and a thrown exception are
both failures of the attempt, exactly as the source treats them.  `waits`
counts the `retryDelay` sleeps performed (line 365-368: after each failed
attempt except the last).
-/

/-- Result of a dispatch: whether it succeeded, how many channel attempts
were made, and how many `retryDelay` waits were performed. -/
structure RetryResult where
  success : Bool
  attemptsMade : Nat
  waits : Nat
  deriving Repr, DecidableEq

/-- The retry loop of `sendInstructionWithRetry`, with `attempt` the
1-based number of the next attempt and `remaining` how many attempts are
still allowed (`remaining = retryAttempts - attempt + 1` at entry). -/
def retryGo (send : Nat → Bool) : Nat → Nat → RetryResult
  | _, 0 => ⟨false, 0, 0⟩
  | attempt, remaining + 1 =>
    if send attempt then
      ⟨true, 1, 0⟩
    else
      match remaining with
      | 0 => ⟨false, 1, 0⟩
      | r + 1 =>
        let rest := retryGo send (attempt + 1) (r + 1)
        ⟨rest.success, rest.attemptsMade + 1, rest.waits + 1⟩

/-- Embedding of `sendInstructionWithRetry` (part_002 lines 346-372):
attempts 1 through `retryAttempts` in order, returning at the first
success, waiting between consecutive attempts but not after the last. -/
def sendInstructionWithRetry (retryAttempts : Nat) (send : Nat → Bool) :
    RetryResult :=
  retryGo send 1 retryAttempts

/-!
The `ChainKeywordMonitor` class of `src/unnamed/part_002`.  The class's
mutable fields become the record `MState`; emitted events become values of
`MEvent` collected in order; wall-clock time (`Date.now()`) is a `Nat`
supplied with each poll; the terminal channel's read result is
`Option JStr` (`none` = failed read) and its send results a function from
attempt number to success, supplied with each poll.  The write-only
`detectedKeywords` set and the never-read `lastReadPosition` field are
omitted.  `setInterval`/`clearInterval` are modelled by the `interval`
field holding the period while a timer is installed.
-/

/-- One entry of the monitor's `chains` config array: `keyword`,
`instruction`, optional `nextKeyword`. -/
structure ChainStage where
  keyword : JStr
  instruction : JStr
  nextKeyword : Option JStr
  deriving Repr, DecidableEq

/-- The `options` object of the config; absent fields are `none`. -/
structure MonitorOptions where
  pollInterval : Option Nat
  timeout : Option Nat
  retryAttempts : Option Nat
  retryDelay : Option Nat
  deriving Repr, DecidableEq

/-- The raw config passed to the constructor.  `instanceId = none` models
an absent field, `some []` an empty (falsy) string; `chains = none` models
an absent `chains` field or one that is not an array. -/
structure MonitorConfig where
  instanceId : Option JStr
  chains : Option (List ChainStage)
  options : Option MonitorOptions
  deriving Repr, DecidableEq

/-- JS truthiness of an optional string (an absent field and the empty
string are falsy). -/
def jsTruthyStr (v : Option JStr) : Bool :=
  match v with
  | none => false
  | some s => !s.isEmpty

/-- JS `value || default` on an optional non-negative number (absent and
`0` are falsy). -/
def jsOrNat (v : Option Nat) (d : Nat) : Nat :=
  match v with
  | none => d
  | some 0 => d
  | some (n + 1) => n + 1

/-- One record pushed onto `executedChains` (part_002 lines 311-316); the
ISO timestamp string is modelled by the numeric wall-clock value. -/
structure ExecRecord where
  keyword : JStr
  instruction : JStr
  timestamp : Nat
  chainIndex : Nat
  deriving Repr, DecidableEq

/-- The events the monitor emits, in emission order. -/
inductive MEvent where
  | started : MEvent
  | stopped : MEvent
  | timeoutEv : (currentChain : Nat) → (executedCount : Nat) → MEvent
  | chain_executed : (keyword : JStr) → (instruction : JStr) →
      (chainIndex : Nat) → MEvent
  | chain_failed : (keyword : JStr) → (instruction : JStr) →
      (chainIndex : Nat) → MEvent
  | chain_complete : (totalStages : Nat) → MEvent
  | errorEv : MEvent
  deriving Repr, DecidableEq

/-- The monitor's state: configuration fields fixed by the constructor plus
the mutable fields of the class. -/
structure MState where
  instanceId : JStr
  chains : List ChainStage
  pollInterval : Nat
  timeout : Nat
  retryAttempts : Nat
  retryDelay : Nat
  currentChainIndex : Nat
  currentKeyword : Option JStr
  isActive : Bool
  startTime : Option Nat
  interval : Option Nat
  outputBuffer : JStr
  pollCount : Nat
  executedChains : List ExecRecord
  lastDetectedPosition : List (JStr × Int)
  keywordMap : List (JStr × ChainStage × Nat)
  deriving Repr, DecidableEq

/-- JS `Map.get` on the position map (insertion-ordered association list). -/
def jsMapGet? (m : List (JStr × Int)) (k : JStr) : Option Int :=
  (m.find? (fun e => e.1 == k)).map (fun e => e.2)

/-- JS `Map.set` on the position map: update in place if the key exists
(keeping its position), else append. -/
def jsMapSet (m : List (JStr × Int)) (k : JStr) (v : Int) :
    List (JStr × Int) :=
  if m.any (fun e => e.1 == k) then
    m.map (fun e => if e.1 == k then (k, v) else e)
  else
    m ++ [(k, v)]

/-- JS `Map.set` on the keyword map. -/
def kwMapSet (m : List (JStr × ChainStage × Nat)) (k : JStr)
    (v : ChainStage × Nat) : List (JStr × ChainStage × Nat) :=
  if m.any (fun e => e.1 == k) then
    m.map (fun e => if e.1 == k then (k, v) else e)
  else
    m ++ [(k, v)]

/-- The keyword map built in the constructor (part_002 lines 78-81):
`keyword ↦ (chain entry, chainIndex)` in insertion order. -/
def mkKeywordMap (chains : List ChainStage) :
    List (JStr × ChainStage × Nat) :=
  chains.enum.foldl (fun m ic => kwMapSet m ic.2.keyword (ic.2, ic.1)) []

/-- Embedding of the `ChainKeywordMonitor` constructor (part_002 lines
39-87).  The only validation performed is that `instanceId` is truthy and
that `chains` is present and an array; everything else is accepted.
Thrown `Error`s become `Except.error` with the message. -/
def mkMonitor (config : MonitorConfig) : Except JStr MState :=
  if !jsTruthyStr config.instanceId then
    .error ("Missing required config: instanceId".toList)
  else
    match config.chains with
    | none => .error ("Missing required config: chains array".toList)
    | some chains =>
      let opts := config.options.getD ⟨none, none, none, none⟩
      .ok
        { instanceId := config.instanceId.getD []
          chains := chains
          pollInterval := jsOrNat opts.pollInterval 5 * 1000
          timeout := jsOrNat opts.timeout 600 * 1000
          retryAttempts := jsOrNat opts.retryAttempts 3
          retryDelay := jsOrNat opts.retryDelay 2 * 1000
          currentChainIndex := 0
          currentKeyword := chains.head?.map (fun c => c.keyword)
          isActive := false
          startTime := none
          interval := none
          outputBuffer := []
          pollCount := 0
          executedChains := []
          lastDetectedPosition := []
          keywordMap := mkKeywordMap chains }

/-- Embedding of `stop()` (part_002 lines 118-132): no-op when not active;
otherwise deactivate, clear the timer, emit `stopped`. -/
def stop (s : MState) : MState × List MEvent :=
  if !s.isActive then (s, [])
  else ({s with isActive := false, interval := none}, [MEvent.stopped])

/-- The per-line loop body of `detectKeywordInOutput` (part_002 lines
226-290): track the user-command flag, and for lines containing the keyword
apply the user-input filters and the completion-signal classifier.  For a
keyword ending in `:` the source tests the unanchored regex
`escaped(keyword) + '\S*'`, which (as `\S*` may match nothing) holds
exactly when the keyword occurs in the line, the same test as `includes`
in the other branch; both branches are kept for traceability. -/
def scanLines (keyword : JStr) : List JStr → Bool → Bool
  | [], _ => false
  | line :: rest, inUserCommand =>
    let trimmedLine := jsTrim line
    let inUser1 := if jsStartsWith trimmedLine ['>'] then true
                   else inUserCommand
    let inUser2 := if inUser1 && jsIncludes trimmedLine ['⏺'] then false
                   else inUser1
    let hasKeyword := if jsEndsWith keyword [':'] then jsIncludes line keyword
                      else jsIncludes line keyword
    if hasKeyword then
      let isUserInput := inUser2 || jsStartsWith trimmedLine ['>'] ||
        jsIncludes line ("plz say".toList) ||
        jsIncludes line ("please say".toList) ||
        jsIncludes line ("type:".toList) ||
        (jsIncludes line ("Todo:".toList) && jsIncludes line keyword) ||
        (jsIncludes line ("Task:".toList) && jsIncludes line keyword) ||
        (jsIncludes line ("Given the following".toList) &&
          jsIncludes line keyword)
      if isUserInput then scanLines keyword rest inUser2
      else if isActualCompletionSignal line keyword then true
      else scanLines keyword rest inUser2
    else
      scanLines keyword rest inUser2

/-- Embedding of `detectKeywordInOutput(keyword)` (part_002 lines 206-293)
as a function of the output buffer and the keyword's recorded
last-detected position (`-1` when absent, as in the source).  Returns
whether a new completion signal was detected and the updated recorded
position (the buffer-global `lastIndexOf` offset, set only on detection,
exactly as the source mutates `lastDetectedPosition`). -/
def detectKeywordInOutput (outputBuffer keyword : JStr) (lastPos : Int) :
    Bool × Int :=
  if !jsIncludes outputBuffer keyword then (false, lastPos)
  else
    match lastIndexOf? outputBuffer keyword with
    | none => (false, lastPos)
    | some currentPosition =>
      if (currentPosition : Int) ≤ lastPos then (false, lastPos)
      else if scanLines keyword (outputBuffer.splitOn '\n') false then
        (true, (currentPosition : Int))
      else (false, lastPos)

/-- Embedding of `executeChainAction(chainConfig)` (part_002 lines
296-344): duplicate-execution guard, record the execution, emit
`chain_executed`, dispatch with retry, then on failure emit `chain_failed`
and stop, on success either advance to `nextKeyword` or emit
`chain_complete` and stop.  `now` is the wall clock used for the record's
timestamp. -/
def executeChainAction (s : MState) (now : Nat) (send : Nat → Bool)
    (chainConfig : ChainStage × Nat) : MState × List MEvent :=
  let c := chainConfig.1
  let chainIndex := chainConfig.2
  if s.executedChains.any
      (fun e => e.keyword == c.keyword && e.chainIndex == chainIndex) then
    (s, [])
  else
    let s1 := {s with
      executedChains := s.executedChains ++
        [⟨c.keyword, c.instruction, now, chainIndex⟩]}
    let r := sendInstructionWithRetry s1.retryAttempts send
    if !r.success then
      let p := stop s1
      (p.1, [MEvent.chain_executed c.keyword c.instruction chainIndex,
             MEvent.chain_failed c.keyword c.instruction chainIndex] ++ p.2)
    else
      match c.nextKeyword with
      | some nk =>
        ({s1 with currentKeyword := some nk,
                  currentChainIndex := chainIndex + 1},
         [MEvent.chain_executed c.keyword c.instruction chainIndex])
      | none =>
        let p := stop s1
        (p.1, [MEvent.chain_executed c.keyword c.instruction chainIndex,
               MEvent.chain_complete s1.executedChains.length] ++ p.2)

/-- JS `value || -1` applied to the recorded position read at part_002
line 213: an absent entry and a recorded offset of `0` (falsy in JS) both
yield `-1`, so a keyword last consumed at offset 0 is looked up as never
consumed. -/
def jsOrNegOne (v : Option Int) : Int :=
  match v with
  | none => -1
  | some x => if x = 0 then -1 else x

/-- The continuation of `executeChainAction` from the point where
`await this.sendInstructionWithRetry(instruction)` resolves to false
(part_002 lines 323-327), as it runs when a suspended poll resumes after
its retry delays: emit `chain_failed` and call `stop()` — with no
re-check of `isActive`, so it runs to completion even if another poll has
already terminated the monitor while this one was suspended. -/
def executeChainActionFailureResume (s : MState) (keyword instruction :
    JStr) (chainIndex : Nat) : MState × List MEvent :=
  let p := stop s
  (p.1, MEvent.chain_failed keyword instruction chainIndex :: p.2)

/-- The loop of `checkForKeywords()` (part_002 lines 195-204) over the
keyword-map entries: the first keyword whose detection succeeds has its
recorded position updated and its chain action executed, then the loop
returns; at most one action per poll.  The `lastDetectedPosition.get(kw)
|| -1` lookup of part_002 line 213 (performed inside
`detectKeywordInOutput` in the source) is performed here, where this model
reads the map. -/
def scanKeywordMap (now : Nat) (send : Nat → Bool) :
    MState → List (JStr × ChainStage × Nat) → MState × List MEvent
  | s, [] => (s, [])
  | s, (kw, entry) :: rest =>
    let lastPos := jsOrNegOne (jsMapGet? s.lastDetectedPosition kw)
    let d := detectKeywordInOutput s.outputBuffer kw lastPos
    if d.1 then
      let s1 := {s with
        lastDetectedPosition := jsMapSet s.lastDetectedPosition kw d.2}
      executeChainAction s1 now send entry
    else
      scanKeywordMap now send s rest

/-- Embedding of `checkForKeywords()` (part_002 lines 195-204). -/
def checkForKeywords (s : MState) (now : Nat) (send : Nat → Bool) :
    MState × List MEvent :=
  scanKeywordMap now send s s.keywordMap

/-- JS regex line terminators (the characters `.` does not match). -/
def isLineTerm (c : Char) : Bool :=
  ['\n', '\r', ' ', ' '].contains c

/-- The literal MCP-bridge wrapper marker searched for at part_002 line
165. -/
def mcpMarker : JStr := "\x7b\"success\":true,\"output\":\"".toList

/-- Whether the text after a marker occurrence completes the match of
`/{"success":true,"output":"(.*)"}$/`: it must end in `"` `}` and the
captured group (everything before those two characters) may not contain a
line terminator (`.` does not match them). -/
def mcpTailOk (tl : JStr) : Bool :=
  jsEndsWith tl ("\"\x7d".toList) && (tl.take (tl.length - 2)).all (fun c => !isLineTerm c)

/-- The capture group of the leftmost match of
`/{"success":true,"output":"(.*)"}$/` against `out`, if any. -/
def mcpMatch? (out : JStr) : Option JStr :=
  (((List.range (out.length + 1)).filter
      (fun i => mcpMarker.isPrefixOf (out.drop i) &&
        mcpTailOk (out.drop (i + mcpMarker.length)))).head?).map
    (fun i =>
      let tl := out.drop (i + mcpMarker.length)
      tl.take (tl.length - 2))

/-- Model of `.replace(/\\n/g, '\n')`: left-to-right non-overlapping
replacement of backslash-n pairs by newlines. -/
def replaceEscNl : JStr → JStr
  | '\\' :: 'n' :: rest => '\n' :: replaceEscNl rest
  | c :: rest => c :: replaceEscNl rest
  | [] => []

/-- Model of `.replace(/\\"/g, '"')`. -/
def replaceEscQuote : JStr → JStr
  | '\\' :: '"' :: rest => '"' :: replaceEscQuote rest
  | c :: rest => c :: replaceEscQuote rest
  | [] => []

/-- The MCP-bridge JSON unwrapping of `checkOutput` (part_002 lines
164-175): when the output contains the wrapper marker and the wrapper
regex matches, use the capture group with `\n`/`\"` escapes decoded. -/
def unwrapMcp (out : JStr) : JStr :=
  if jsIncludes out mcpMarker then
    match mcpMatch? out with
    | some inner => replaceEscQuote (replaceEscNl inner)
    | none => out
  else out

/-- Result of one `checkOutput()` call: the new state, the events emitted
inside the call, and whether the call threw (it throws exactly when the
read fails, part_002 lines 157-160 and 189-192; the caller decides whether
the exception becomes an `error` event). -/
structure COOut where
  state : MState
  events : List MEvent
  threw : Bool

/-- Embedding of `checkOutput()` (part_002 lines 134-193): no-op when
inactive; count the poll; on timeout stop and emit `timeout`; on read
failure throw; otherwise unwrap the output, append it to the trailing
10000-character window of the buffer, and scan for keywords. -/
def checkOutput (s : MState) (now : Nat) (readRes : Option JStr)
    (send : Nat → Bool) : COOut :=
  if !s.isActive then ⟨s, [], false⟩
  else
    let s1 := {s with pollCount := s.pollCount + 1}
    if now - s1.startTime.getD 0 > s1.timeout then
      let p := stop s1
      ⟨p.1, p.2 ++ [MEvent.timeoutEv s1.currentChainIndex
                      s1.executedChains.length], false⟩
    else
      match readRes with
      | none => ⟨s1, [], true⟩
      | some out =>
        let newOutput := unwrapMcp out
        let s2 := {s1 with
          outputBuffer := jsSliceLast 10000 s1.outputBuffer ++ newOutput}
        let p := checkForKeywords s2 now send
        ⟨p.1, p.2, false⟩

/-- The observable environment of one poll: the wall clock, the channel
read result (`none` = failed read), and the channel's per-attempt send
results for any dispatch performed during the poll. -/
structure PollInput where
  now : Nat
  readRes : Option JStr
  send : Nat → Bool

/-- Embedding of `start()` (part_002 lines 89-116): warn-and-return when
already active; otherwise activate, record `startTime`, install the
recurring timer, run the immediate poll, and emit `started`.  The
`started` event is emitted synchronously before the asynchronous part of
the immediate poll resolves, and the immediate poll's synchronous prefix
emits nothing (its timeout test `now - now > timeout` is false), so the
event order is `started` followed by the immediate poll's events; a read
failure in the immediate poll is swallowed by `.catch(console.error)`
(line 113), producing no event. -/
def start (s : MState) (inp : PollInput) : MState × List MEvent :=
  if s.isActive then (s, [])
  else
    let s1 := {s with isActive := true, startTime := some inp.now,
                      interval := some s.pollInterval}
    let o := checkOutput s1 inp.now inp.readRes inp.send
    (o.state, MEvent.started :: o.events)

/-- One externally triggered step of a monitor run: a `start()` call with
its immediate poll, one scheduled poll tick (whose wrapper at part_002
lines 105-110 turns a thrown read failure into an `error` event), or an
external `stop()` call.  A sequence of steps is executed to completion in
order — the cooperative scheduling spec §5 mandates, where each poll tick
(including its retry waits) finishes before the next begins.  The source
does **not** enforce this: `setInterval` fires `this.checkOutput()`
without awaiting the in-flight call and there is no reentrancy guard, so
a poll suspended at `await readFromInstance` (line 155) or at a retry
delay (line 367) can overlap the next tick; `sSuspended`,
`executeChainActionFailureResume` and the trace built from them exhibit
such an overlapping execution, which this step model excludes. -/
inductive Step where
  | startStep : PollInput → Step
  | pollStep : PollInput → Step
  | stopStep : Step

/-- Execute one step atomically against the state, returning the events
it emits (the serialized scheduling of spec §5; see `Step`). -/
def runStep (s : MState) : Step → MState × List MEvent
  | .startStep inp => start s inp
  | .pollStep inp =>
    let o := checkOutput s inp.now inp.readRes inp.send
    (o.state, o.events ++ (if o.threw then [MEvent.errorEv] else []))
  | .stopStep => stop s

/-- Execute a list of steps sequentially, each running to completion
before the next (the serialized scheduling of spec §5; see `Step`),
concatenating the emitted events. -/
def runSteps (s : MState) : List Step → MState × List MEvent
  | [] => (s, [])
  | st :: rest =>
    let p := runStep s st
    let q := runSteps p.1 rest
    (q.1, p.2 ++ q.2)

/-- Whether a step is not a `start()` call (a single run starts once). -/
def noStartStep : Step → Bool
  | .startStep _ => false
  | _ => true

/-- Terminal-outcome events: `timeout`, `chain_failed`, `chain_complete`. -/
def isTerminalEv : MEvent → Bool
  | .timeoutEv _ _ => true
  | .chain_failed _ _ _ => true
  | .chain_complete _ => true
  | _ => false

/-- The `stopped` event. -/
def isStoppedEv : MEvent → Bool
  | .stopped => true
  | _ => false

/-- The `chain_executed` event. -/
def isExecEv : MEvent → Bool
  | .chain_executed _ _ _ => true
  | _ => false

/-- The identity the duplicate-execution guard checks: the
`(keyword, chainIndex)` pair of an execution record. -/
def execKey (e : ExecRecord) : JStr × Nat := (e.keyword, e.chainIndex)



/-!
Spec-side acceptance predicates for the non-colon branch of the detector
(spec §4.1 rule 4), used to compare the specification's wording with the
code.  `c9AcceptOrig` follows the claim's wording ("at most 9 extra
characters between the marker and the keyword"); `c9AcceptSpec` is the
amended version with at most 8 characters between them (the source bound
`trimmedLine.length < keyword.length + 10` leaves at most 9 characters
before the keyword, the first being the marker itself).
-/

/-- The mention-rejection rules (spec §4.1 rules 1-2): no ignored pattern
occurs in the trimmed line and the trimmed line is not a numbered-list
item. -/
def passesMentionRejection (line keyword : JStr) : Bool :=
  !((ignoredPatterns keyword).any (fun p => jsIncludes (jsTrim line) p)) &&
  !numberedListStart (jsTrim line)

/-- Acceptance for non-colon keywords as the claim words it, with at most
9 characters between the status marker and the keyword. -/
def c9AcceptOrig (line keyword : JStr) : Prop :=
  jsTrim line = keyword ∨
  jsTrim line = claudeMarker ++ keyword ∨
  ∃ mid : JStr, jsTrim line = '⏺' :: (mid ++ keyword) ∧ mid.length ≤ 9

/-- Acceptance for non-colon keywords as amended: the trimmed line is the
keyword, or the keyword prefixed by exactly one status marker, or it
starts with the marker character and ends with the keyword with at most 8
characters between them. -/
def c9AcceptSpec (line keyword : JStr) : Prop :=
  jsTrim line = keyword ∨
  jsTrim line = claudeMarker ++ keyword ∨
  ∃ mid : JStr, jsTrim line = '⏺' :: (mid ++ keyword) ∧ mid.length ≤ 8

/-- Whether a constructor result is a thrown error. -/
def isErr : Except JStr MState → Bool
  | .error _ => true
  | .ok _ => false

/-- Sample two-stage chain used by concrete runs: stage 0 triggers on
`"A"` and chains to `"B"`; stage 1 triggers on `"B"` and is terminal. -/
def sampleChains : List ChainStage :=
  [⟨"A".toList, "ia".toList, some ("B".toList)⟩,
   ⟨"B".toList, "ib".toList, none⟩]

/-- Sample well-formed monitor config over `sampleChains`. -/
def sampleConfig : MonitorConfig :=
  ⟨some ("x".toList), some sampleChains, none⟩

/-- The constructor's output on `sampleConfig`, written out. -/
def s0sample : MState :=
  { instanceId := "x".toList
    chains := sampleChains
    pollInterval := 5000
    timeout := 600000
    retryAttempts := 3
    retryDelay := 2000
    currentChainIndex := 0
    currentKeyword := some ("A".toList)
    isActive := false
    startTime := none
    interval := none
    outputBuffer := []
    pollCount := 0
    executedChains := []
    lastDetectedPosition := []
    keywordMap :=
      [("A".toList, ⟨"A".toList, "ia".toList, some ("B".toList)⟩, 0),
       ("B".toList, ⟨"B".toList, "ib".toList, none⟩, 1)] }

/-- The state `s0sample` reaches after a successful `start()` at time 0
with an empty first read. -/
def sActiveSample : MState :=
  {s0sample with isActive := true, startTime := some 0,
                 interval := some 5000, pollCount := 1}

/-- The monitor state at the instant a poll is suspended awaiting a retry
delay inside `sendInstructionWithRetry` (part_002 line 367): started at
time 0, the poll at time 5 has read `" A"`, detected stage 0's keyword at
offset 1 and recorded it, pushed the stage-0 execution record, emitted
`chain_executed`, and had its first send attempt fail; its remaining
attempts are still pending and nothing here is model-invented — every
field is the value the source's synchronous prefix (lines 134-187 and
296-321) has produced at that await. -/
def sSuspended : MState :=
  {s0sample with isActive := true, startTime := some 0,
                 interval := some 5000, pollCount := 2,
                 outputBuffer := " A".toList,
                 lastDetectedPosition := [("A".toList, (1 : Int))],
                 executedChains := [⟨"A".toList, "ia".toList, 5, 0⟩]}

/-- The state `start()` builds before its immediate poll: active, with
`startTime` recorded and the recurring timer installed. -/
def startedState (s : MState) (now : Nat) : MState :=
  {s with isActive := true, startTime := some now,
          interval := some s.pollInterval}

end WorkflowsProof

namespace WorkflowsProof

/-! Helper lemmas. -/

/-- A pattern strictly longer than `K` cannot occur inside `K`; in
particular the keyword-derived ignored patterns never match the bare
keyword line. -/
theorem jsIncludes_append_self (p K : JStr) (hp : p ≠ []) :
    jsIncludes K (p ++ K) = false := by
  simp only [jsIncludes, decide_eq_false_iff_not]
  intro h
  have hlen := h.length_le
  simp only [List.length_append] at hlen
  exact hp (List.length_eq_zero.mp (by omega))

theorem firstIndexOf?_zero (s pat : JStr) (h : pat <+: s) :
    firstIndexOf? s pat = some 0 := by
  unfold firstIndexOf? occIdx
  rw [List.range_succ_eq_map, List.filter_cons]
  simp [h]

/-- Claim C10 helper: stripping the first occurrence of a prefix. -/
theorem jsReplaceFirst_strip (pat rest : JStr) :
    jsReplaceFirst (pat ++ rest) pat [] = rest := by
  unfold jsReplaceFirst
  rw [firstIndexOf?_zero _ _ (List.prefix_append pat rest)]
  simp [List.drop_left]

/-- Claim C10: converting an instance id that does not start with
`claude_` to a session name and back yields the original id. -/
theorem c10_instance_id_round_trip (instanceId : JStr)
    (h : jsStartsWith instanceId ("claude_".toList) = false) :
    sessionNameToInstanceId (instanceIdToSessionName instanceId) =
      instanceId := by
  unfold instanceIdToSessionName normalizeInstanceId
  by_cases hc : (!jsIncludes instanceId ['_'] ||
      (!jsStartsWith instanceId ("auto_".toList) &&
       !jsStartsWith instanceId ("spec_".toList))) = true
  · rw [if_pos hc]
    unfold sessionNameToInstanceId
    rw [if_neg (by rw [h]; decide)]
  · rw [if_neg hc]
    unfold sessionNameToInstanceId
    rw [if_pos (by simp [jsStartsWith]), jsReplaceFirst_strip]

/-- Claim C10 witness at a concrete instance id. -/
theorem c10_witness :
    jsStartsWith ("auto_123".toList) ("claude_".toList) = false ∧
    sessionNameToInstanceId (instanceIdToSessionName ("auto_123".toList)) =
      ("auto_123".toList) :=
  ⟨by decide, c10_instance_id_round_trip _ (by decide)⟩

end WorkflowsProof

namespace WorkflowsProof

/-- Claim C1 counterexample: the keyword `"Create"` is itself one of the
ignored "mention, not signal" substrings, so even the exact standalone
line `"Create"` is rejected by the detector, refuting `isCompletionSignal(K, K)`
for every keyword `K`. -/
theorem c1_counterexample :
    isActualCompletionSignal ("Create".toList) ("Create".toList) = false := by
  decide

/-- Claim C1 (amended): for every keyword `K` that is unchanged by
trimming, contains none of the fixed ignored-pattern substrings, and does
not start with a numbered-list prefix, the detector accepts the exact
standalone line `K`.  (The keyword-derived ignored patterns are strictly
longer than `K` and so can never occur in it.) -/
theorem c1_exact_keyword_line_accepted (K : JStr)
    (htrim : jsTrim K = K)
    (hfixed : ∀ p ∈ fixedIgnoredPatterns, jsIncludes K p = false)
    (hnum : numberedListStart K = false) :
    isActualCompletionSignal K K = true := by
  have hany : (ignoredPatterns K).any (fun p => jsIncludes K p) = false := by
    rw [List.any_eq_false]
    intro q hq
    simp only [ignoredPatterns, List.mem_cons, List.not_mem_nil, or_false] at hq
    rcases hq with rfl|rfl|rfl|rfl|rfl|rfl|rfl|rfl|rfl|rfl|rfl|rfl|rfl|rfl|
      rfl|rfl|rfl|rfl|rfl|rfl|rfl|rfl|rfl|rfl|rfl
    all_goals first
      | exact (by rw [hfixed _ (by decide)]; decide)
      | exact (by rw [jsIncludes_append_self _ _ (by decide)]; decide)
  simp only [isActualCompletionSignal, htrim, hany]
  simp only [Bool.false_eq_true, if_false, hnum]
  by_cases hc : jsEndsWith K [':'] = true
  · simp only [hc, if_true]
    have : anchoredColonTest K K = true := by
      unfold anchoredColonTest
      simp [List.drop_length]
    simp [this]
  · simp only [hc]
    simp

/-- Claim C1 (amended) witness at the concrete keyword `"TASK_DONE"`. -/
theorem c1_witness :
    jsTrim ("TASK_DONE".toList) = ("TASK_DONE".toList) ∧
    (∀ p ∈ fixedIgnoredPatterns,
      jsIncludes ("TASK_DONE".toList) p = false) ∧
    numberedListStart ("TASK_DONE".toList) = false ∧
    isActualCompletionSignal ("TASK_DONE".toList) ("TASK_DONE".toList) =
      true :=
  ⟨by decide, by decide, by decide,
   c1_exact_keyword_line_accepted _ (by decide) (by decide) (by decide)⟩

end WorkflowsProof

namespace WorkflowsProof

/-- Full characterization of the retry loop from attempt `attempt` with
`remaining` attempts allowed. -/
theorem retryGo_spec (send : Nat → Bool) :
    ∀ (remaining attempt : Nat),
      (retryGo send attempt remaining).attemptsMade ≤ remaining ∧
      (retryGo send attempt remaining).waits =
        (retryGo send attempt remaining).attemptsMade - 1 ∧
      ((retryGo send attempt remaining).success = true ↔
        ∃ i, attempt ≤ i ∧ i < attempt + remaining ∧ send i = true) ∧
      ((retryGo send attempt remaining).success = true →
        1 ≤ (retryGo send attempt remaining).attemptsMade ∧
        send (attempt + (retryGo send attempt remaining).attemptsMade - 1) =
          true ∧
        ∀ j, attempt ≤ j →
          j < attempt + (retryGo send attempt remaining).attemptsMade - 1 →
          send j = false) ∧
      ((retryGo send attempt remaining).success = false →
        (retryGo send attempt remaining).attemptsMade = remaining ∧
        ∀ j, attempt ≤ j → j < attempt + remaining → send j = false) := by
  intro remaining
  induction remaining with
  | zero =>
    intro attempt
    have eS : (retryGo send attempt 0).success = false := rfl
    have eA : (retryGo send attempt 0).attemptsMade = 0 := rfl
    have eW : (retryGo send attempt 0).waits = 0 := rfl
    refine ⟨?_, ?_, ?_, ?_, ?_⟩
    · rw [eA]
    · rw [eW, eA]
    · rw [eS]
      constructor
      · intro h; cases h
      · rintro ⟨i, h1, h2, _⟩; omega
    · rw [eS]; intro h; cases h
    · rw [eA]; intro _; exact ⟨rfl, fun j h1 h2 => by omega⟩
  | succ m ih =>
    intro attempt
    by_cases hs : send attempt = true
    · have eS : (retryGo send attempt (m + 1)).success = true := by
        unfold retryGo; simp [hs]
      have eA : (retryGo send attempt (m + 1)).attemptsMade = 1 := by
        unfold retryGo; simp [hs]
      have eW : (retryGo send attempt (m + 1)).waits = 0 := by
        unfold retryGo; simp [hs]
      refine ⟨?_, ?_, ?_, ?_, ?_⟩
      · rw [eA]; omega
      · rw [eW, eA]
      · rw [eS]
        simp only [true_iff]
        exact ⟨attempt, Nat.le_refl _, by omega, hs⟩
      · rw [eA]
        intro _
        refine ⟨Nat.le_refl _, ?_, ?_⟩
        · have harith : attempt + 1 - 1 = attempt := by omega
          rw [harith]; exact hs
        · intro j h1 h2
          exact absurd h2 (by omega)
      · rw [eS]; intro h; cases h
    · have hs' : send attempt = false := by
        cases h : send attempt
        · rfl
        · exact absurd h hs
      cases m with
      | zero =>
        have eS : (retryGo send attempt 1).success = false := by
          unfold retryGo; simp [hs']
        have eA : (retryGo send attempt 1).attemptsMade = 1 := by
          unfold retryGo; simp [hs']
        have eW : (retryGo send attempt 1).waits = 0 := by
          unfold retryGo; simp [hs']
        refine ⟨?_, ?_, ?_, ?_, ?_⟩
        · rw [eA]
        · rw [eW, eA]
        · rw [eS]
          constructor
          · intro h; cases h
          · rintro ⟨i, h1, h2, h3⟩
            have hi : i = attempt := by omega
            rw [hi, hs'] at h3; cases h3
        · rw [eS]; intro h; cases h
        · rw [eA]
          intro _
          refine ⟨rfl, fun j h1 h2 => ?_⟩
          have hj : j = attempt := by omega
          rw [hj]; exact hs'
      | succ k =>
        obtain ⟨ih1, ih2, ih3, ih4, ih5⟩ := ih (attempt + 1)
        clear ih
        have e : retryGo send attempt (k + 1 + 1) =
            ⟨(retryGo send (attempt + 1) (k + 1)).success,
             (retryGo send (attempt + 1) (k + 1)).attemptsMade + 1,
             (retryGo send (attempt + 1) (k + 1)).waits + 1⟩ := by
          conv_lhs => unfold retryGo
          simp [hs']
        have eS : (retryGo send attempt (k + 1 + 1)).success =
            (retryGo send (attempt + 1) (k + 1)).success := by rw [e]
        have eA : (retryGo send attempt (k + 1 + 1)).attemptsMade =
            (retryGo send (attempt + 1) (k + 1)).attemptsMade + 1 := by rw [e]
        have eW : (retryGo send attempt (k + 1 + 1)).waits =
            (retryGo send (attempt + 1) (k + 1)).waits + 1 := by rw [e]
        clear e
        have hge1 : 1 ≤ (retryGo send (attempt + 1) (k + 1)).attemptsMade := by
          cases h : (retryGo send (attempt + 1) (k + 1)).success
          · have := (ih5 h).1; omega
          · exact (ih4 h).1
        refine ⟨?_, ?_, ?_, ?_, ?_⟩
        · rw [eA]
          clear ih3 ih4 ih5
          omega
        · rw [eW, eA, ih2, Nat.sub_add_cancel hge1, Nat.add_sub_cancel]
        · rw [eS, ih3]
          clear ih3 ih4 ih5
          constructor
          · rintro ⟨i, h1, h2, h3⟩
            refine ⟨i, by omega, by omega, h3⟩
          · rintro ⟨i, h1, h2, h3⟩
            rcases Nat.eq_or_lt_of_le h1 with h1' | h1'
            · rw [← h1', hs'] at h3; cases h3
            · refine ⟨i, by omega, by omega, h3⟩
        · rw [eS, eA]
          intro h
          obtain ⟨g1, g2, g3⟩ := ih4 h
          clear ih3 ih4 ih5
          refine ⟨by omega, ?_, ?_⟩
          · have harith :
                attempt + ((retryGo send (attempt + 1) (k + 1)).attemptsMade
                  + 1) - 1 =
                attempt + 1 +
                  (retryGo send (attempt + 1) (k + 1)).attemptsMade - 1 := by
              omega
            rw [harith]; exact g2
          · intro j h1 h2
            rcases Nat.eq_or_lt_of_le h1 with h1' | h1'
            · rw [← h1']; exact hs'
            · exact g3 j (by omega) (by omega)
        · rw [eS, eA]
          intro h
          obtain ⟨g1, g2⟩ := ih5 h
          clear ih3 ih4 ih5
          refine ⟨by omega, ?_⟩
          intro j h1 h2
          rcases Nat.eq_or_lt_of_le h1 with h1' | h1'
          · rw [← h1']; exact hs'
          · exact g2 j (by omega) (by omega)

/-- Claim C3: the dispatcher attempts the channel send at most
`retryAttempts` times, waits between consecutive attempts but not after
the last one (`waits = attemptsMade - 1`), succeeds exactly when some
attempt in range is reported successful, returns at the first successful
attempt having made no further attempts, and fails only after all
`retryAttempts` attempts have failed; every channel-reported failure is
treated uniformly (the channel model `send` already identifies error
results and thrown exceptions, which the source treats identically). -/
theorem c3_dispatch_retry_policy (retryAttempts : Nat) (send : Nat → Bool) :
    (sendInstructionWithRetry retryAttempts send).attemptsMade ≤
      retryAttempts ∧
    (sendInstructionWithRetry retryAttempts send).waits =
      (sendInstructionWithRetry retryAttempts send).attemptsMade - 1 ∧
    ((sendInstructionWithRetry retryAttempts send).success = true ↔
      ∃ i, 1 ≤ i ∧ i ≤ retryAttempts ∧ send i = true) ∧
    ((sendInstructionWithRetry retryAttempts send).success = true →
      send (sendInstructionWithRetry retryAttempts send).attemptsMade =
        true ∧
      ∀ j, 1 ≤ j →
        j < (sendInstructionWithRetry retryAttempts send).attemptsMade →
        send j = false) ∧
    ((sendInstructionWithRetry retryAttempts send).success = false →
      (sendInstructionWithRetry retryAttempts send).attemptsMade =
        retryAttempts ∧
      ∀ j, 1 ≤ j → j ≤ retryAttempts → send j = false) := by
  obtain ⟨h1, h2, h3, h4, h5⟩ := retryGo_spec send retryAttempts 1
  unfold sendInstructionWithRetry
  refine ⟨h1, h2, ?_, ?_, ?_⟩
  · rw [h3]
    constructor
    · rintro ⟨i, g1, g2, g3⟩; exact ⟨i, g1, by omega, g3⟩
    · rintro ⟨i, g1, g2, g3⟩; exact ⟨i, g1, by omega, g3⟩
  · intro h
    obtain ⟨g1, g2, g3⟩ := h4 h
    refine ⟨?_, ?_⟩
    · have harith : 1 + (retryGo send 1 retryAttempts).attemptsMade - 1 =
          (retryGo send 1 retryAttempts).attemptsMade := by omega
      rw [harith] at g2; exact g2
    · intro j hj1 hj2
      exact g3 j hj1 (by omega)
  · intro h
    obtain ⟨g1, g2⟩ := h5 h
    exact ⟨g1, fun j hj1 hj2 => g2 j hj1 (by omega)⟩

/-- Claim C3 witness: with three attempts allowed and a channel that
succeeds only on attempt 2, the dispatcher succeeds, makes at most three
attempts, and its final attempt is the successful one. -/
theorem c3_witness :
    (sendInstructionWithRetry 3 (fun i => decide (i = 2))).success = true ∧
    (sendInstructionWithRetry 3 (fun i => decide (i = 2))).attemptsMade ≤ 3 ∧
    (fun i => decide (i = 2))
      (sendInstructionWithRetry 3 (fun i => decide (i = 2))).attemptsMade =
      true :=
  have h := c3_dispatch_retry_policy 3 (fun i => decide (i = 2))
  have hs : (sendInstructionWithRetry 3 (fun i => decide (i = 2))).success =
      true :=
    (h.2.2.1).mpr ⟨2, by decide, by decide, by decide⟩
  ⟨hs, h.1, ((h.2.2.2.1) hs).1⟩

end WorkflowsProof

namespace WorkflowsProof

/-- Claim C4: the detector triggers only when the last occurrence of the
keyword in the buffer lies strictly beyond the recorded last-detected
position, and never triggers when the last occurrence is at or before it;
on a trigger the recorded position becomes that last-occurrence offset. -/
theorem c4_offset_guard (outputBuffer keyword : JStr) (lastPos : Int) :
    ((detectKeywordInOutput outputBuffer keyword lastPos).1 = true →
      ∃ cur : Nat, lastIndexOf? outputBuffer keyword = some cur ∧
        lastPos < (cur : Int) ∧
        (detectKeywordInOutput outputBuffer keyword lastPos).2 =
          (cur : Int)) ∧
    (∀ cur : Nat, lastIndexOf? outputBuffer keyword = some cur →
      (cur : Int) ≤ lastPos →
      (detectKeywordInOutput outputBuffer keyword lastPos).1 = false) := by
  unfold detectKeywordInOutput
  cases hinc : jsIncludes outputBuffer keyword with
  | false =>
    simp only [hinc, Bool.not_false, if_true]
    constructor
    · intro h; cases h
    · intro cur hcur hcle; trivial
  | true =>
    simp only [hinc, Bool.not_true, Bool.false_eq_true, if_false]
    cases hfind : lastIndexOf? outputBuffer keyword with
    | none =>
      simp only [hfind]
      constructor
      · intro h; cases h
      · intro cur hcur; cases hcur
    | some currentPosition =>
      simp only [hfind]
      by_cases hle : (currentPosition : Int) ≤ lastPos
      · rw [if_pos hle]
        constructor
        · intro h; cases h
        · intro cur hcur hcle; trivial
      · rw [if_neg hle]
        cases hscan : scanLines keyword (outputBuffer.splitOn '\n') false with
        | false =>
          simp only [hscan, Bool.false_eq_true, if_false]
          constructor
          · intro h; cases h
          · intro cur hcur hcle; trivial
        | true =>
          simp only [hscan, if_true]
          constructor
          · intro _
            refine ⟨currentPosition, rfl, by omega, rfl⟩
          · intro cur hcur hcle
            cases hcur
            exact absurd hcle hle

/-- Claim C4 witness: on the buffer `"DONE"` with keyword `"DONE"` and no
previously recorded position (`-1`), the detector triggers, and the last
occurrence it locates sits strictly beyond the recorded position. -/
theorem c4_witness :
    ∃ cur : Nat, lastIndexOf? ("DONE".toList) ("DONE".toList) = some cur ∧
      (-1 : Int) < (cur : Int) ∧
      (detectKeywordInOutput ("DONE".toList) ("DONE".toList) (-1)).2 =
        (cur : Int) :=
  (c4_offset_guard ("DONE".toList) ("DONE".toList) (-1)).1 (by decide)

end WorkflowsProof

namespace WorkflowsProof

/-- Claim C9 counterexample: for the keyword `"DONE"` and the line
`"⏺123456789DONE"` (9 characters between the marker and the keyword,
total length 14 = 4 + 10), the claim's acceptance condition holds, the
mention-rejection rules pass, yet the detector rejects the line, because
the source requires `trimmedLine.length < keyword.length + 10`. -/
theorem c9_counterexample :
    jsEndsWith ("DONE".toList) [':'] = false ∧
    passesMentionRejection ("⏺123456789DONE".toList) ("DONE".toList) =
      true ∧
    c9AcceptOrig ("⏺123456789DONE".toList) ("DONE".toList) ∧
    isActualCompletionSignal ("⏺123456789DONE".toList) ("DONE".toList) =
      false :=
  ⟨by decide, by decide,
   Or.inr (Or.inr ⟨"123456789".toList, by decide, by decide⟩),
   by decide⟩

/-- Claim C9 (amended): for every keyword not ending in `:` and every line
passing the mention-rejection rules, the detector accepts exactly the
lines whose trimmed form is the keyword, the keyword prefixed by one
status marker, or marker + at most 8 characters + keyword. -/
theorem c9_acceptance_rule (line keyword : JStr)
    (hcolon : jsEndsWith keyword [':'] = false)
    (hpass : passesMentionRejection line keyword = true) :
    (isActualCompletionSignal line keyword = true ↔
      c9AcceptSpec line keyword) := by
  have hsplit := hpass
  unfold passesMentionRejection at hsplit
  rw [Bool.and_eq_true, Bool.not_eq_true', Bool.not_eq_true'] at hsplit
  obtain ⟨hany, hnum⟩ := hsplit
  simp only [isActualCompletionSignal, hany, hnum, hcolon,
    Bool.false_eq_true, if_false]
  simp only [Bool.or_eq_true, Bool.and_eq_true, beq_iff_eq,
    decide_eq_true_eq, jsStartsWith, jsEndsWith,
    List.isPrefixOf_iff_prefix, List.isSuffixOf_iff_suffix]
  unfold c9AcceptSpec
  constructor
  · rintro ((h | h) | ⟨⟨hs, he⟩, hl⟩)
    · exact Or.inl h
    · exact Or.inr (Or.inl h)
    · obtain ⟨t, ht⟩ := hs
      obtain ⟨pre, hpre⟩ := he
      cases pre with
      | nil =>
        exact Or.inl (by simpa using hpre.symm)
      | cons c pre' =>
        right; right
        rw [← hpre] at ht
        simp only [List.cons_append, List.nil_append] at ht
        injection ht with h1 h2
        refine ⟨pre', ?_, ?_⟩
        · rw [← hpre, ← h1]
          rfl
        · have hlen : (jsTrim line).length =
              1 + pre'.length + keyword.length := by
            rw [← hpre]
            simp [List.length_append]
            omega
          omega
  · rintro (h | h | ⟨mid, heq, hle⟩)
    · exact Or.inl (Or.inl h)
    · exact Or.inl (Or.inr h)
    · refine Or.inr ⟨⟨⟨mid ++ keyword, (by rw [heq]; rfl)⟩,
              ⟨'⏺' :: mid, (by rw [heq]; rfl)⟩⟩, ?_⟩
      rw [heq]
      simp only [List.length_cons, List.length_append]
      omega

/-- Claim C9 (amended) witness at the line `"⏺ DONE"` and keyword
`"DONE"`: the hypotheses hold and the detector's verdict coincides with
the amended acceptance condition. -/
theorem c9_witness :
    isActualCompletionSignal ("⏺ DONE".toList) ("DONE".toList) = true ↔
      c9AcceptSpec ("⏺ DONE".toList) ("DONE".toList) :=
  c9_acceptance_rule ("⏺ DONE".toList) ("DONE".toList) (by decide)
    (by decide)

end WorkflowsProof

namespace WorkflowsProof

/-- Claim C7 counterexample: the monitor constructor accepts without error
both a config with an empty `chains` array and one whose only stage has a
`nextKeyword` matching no later stage's keyword (broken linkage); no
`ConfigurationError` is raised before `start()` for either structurally
invalid chain definition. -/
theorem c7_counterexample :
    isErr (mkMonitor ⟨some ("x".toList), some [], none⟩) = false ∧
    isErr (mkMonitor ⟨some ("x".toList),
      some [⟨"A".toList, "ia".toList, some ("ZZZ".toList)⟩], none⟩) =
      false := by
  constructor
  · rfl
  · rfl

/-- Claim C7 (amended): the monitor constructor raises an error before
`start()` exactly when `instanceId` is absent or empty, or `chains` is
absent or not an array; an empty chains list, broken keyword linkage, or
any per-stage defect is accepted without error (constructor errors, when
they occur, happen before `start()` and are never retried). -/
theorem c7_constructor_validation (config : MonitorConfig) :
    isErr (mkMonitor config) = true ↔
      (jsTruthyStr config.instanceId = false ∨ config.chains = none) := by
  unfold mkMonitor
  cases ht : jsTruthyStr config.instanceId with
  | false =>
    simp only [ht, Bool.not_false, if_true]
    simp [isErr]
  | true =>
    simp only [ht, Bool.not_true, Bool.false_eq_true, if_false]
    cases hc : config.chains with
    | none => simp [isErr]
    | some chains => simp [isErr]

/-- Claim C7 (amended) witness: a config with a missing `instanceId` does
raise a constructor error. -/
theorem c7_witness :
    isErr (mkMonitor ⟨none, some [], none⟩) = true :=
  (c7_constructor_validation ⟨none, some [], none⟩).mpr (Or.inl (by decide))

/-- The `stop()` embedding is a no-op on an inactive monitor. -/
theorem stop_inactive (s : MState) (h : s.isActive = false) :
    stop s = (s, []) := by
  unfold stop
  rw [h]
  rfl

/-- The `stop()` embedding on an active monitor deactivates, clears the
timer, and emits one `stopped` event. -/
theorem stop_active (s : MState) (h : s.isActive = true) :
    stop s = ({s with isActive := false, interval := none},
      [MEvent.stopped]) := by
  unfold stop
  rw [h]
  rfl

/-- The duplicate-execution guard evaluating to false means the
`(keyword, chainIndex)` pair is not among the already-executed stages. -/
theorem not_executed_key (l : List ExecRecord) (kw : JStr) (i : Nat)
    (h : l.any (fun e => e.keyword == kw && e.chainIndex == i) = false) :
    (kw, i) ∉ l.map execKey := by
  intro hmem
  rw [List.any_eq_false] at h
  obtain ⟨r, hr, hkey⟩ := List.mem_map.mp hmem
  apply h r hr
  unfold execKey at hkey
  rw [Prod.mk.injEq] at hkey
  rw [Bool.and_eq_true, beq_iff_eq, beq_iff_eq]
  exact ⟨hkey.1, hkey.2⟩

/-- Behaviour of one `executeChainAction` call from an active state: the
clock-independent fields are preserved, `executedChains` either stays
unchanged (duplicate guard, no events) or grows by exactly one record
whose `(keyword, chainIndex)` pair was not yet present (one
`chain_executed` event), and the call either leaves the monitor active
with no `stopped`/terminal event or deactivates it emitting exactly one
`stopped` and one terminal event. -/
theorem executeChainAction_spec (s : MState) (now : Nat)
    (send : Nat → Bool) (e : ChainStage × Nat) (hact : s.isActive = true) :
    (executeChainAction s now send e).1.startTime = s.startTime ∧
    (executeChainAction s now send e).1.pollCount = s.pollCount ∧
    ((executeChainAction s now send e).1.isActive = true →
      (executeChainAction s now send e).1.interval = s.interval) ∧
    (((executeChainAction s now send e).1.executedChains =
        s.executedChains ∧
      List.countP isExecEv (executeChainAction s now send e).2 = 0) ∨
     (∃ rec, (executeChainAction s now send e).1.executedChains =
        s.executedChains ++ [rec] ∧
      execKey rec ∉ s.executedChains.map execKey ∧
      List.countP isExecEv (executeChainAction s now send e).2 = 1)) ∧
    (((executeChainAction s now send e).1.isActive = true ∧
      List.countP isStoppedEv (executeChainAction s now send e).2 = 0 ∧
      List.countP isTerminalEv (executeChainAction s now send e).2 = 0) ∨
     ((executeChainAction s now send e).1.isActive = false ∧
      List.countP isStoppedEv (executeChainAction s now send e).2 = 1 ∧
      List.countP isTerminalEv (executeChainAction s now send e).2 = 1)) := by
  unfold executeChainAction
  dsimp only
  split
  · refine ⟨rfl, rfl, fun _ => rfl, Or.inl ⟨rfl, rfl⟩,
      Or.inl ⟨hact, rfl, rfl⟩⟩
  · next hdup =>
    have hdup' : s.executedChains.any
        (fun r => r.keyword == e.1.keyword && r.chainIndex == e.2) =
        false := by
      cases h : s.executedChains.any
          (fun r => r.keyword == e.1.keyword && r.chainIndex == e.2)
      · rfl
      · exact absurd h hdup
    have hnotin := not_executed_key s.executedChains e.1.keyword e.2 hdup'
    split
    · rw [stop_active _ (by exact hact)]
      refine ⟨rfl, rfl, ?_, Or.inr ⟨_, rfl, hnotin, ?_⟩,
        Or.inr ⟨rfl, ?_, ?_⟩⟩
      · intro h; cases h
      · simp [List.countP_cons, List.countP_nil, List.countP_append,
          isExecEv]
      · simp [List.countP_cons, List.countP_nil, List.countP_append,
          isStoppedEv]
      · simp [List.countP_cons, List.countP_nil, List.countP_append,
          isTerminalEv]
    · split
      · refine ⟨rfl, rfl, fun _ => rfl, Or.inr ⟨_, rfl, hnotin, ?_⟩,
          Or.inl ⟨hact, ?_, ?_⟩⟩
        · simp [List.countP_cons, List.countP_nil, isExecEv]
        · simp [List.countP_cons, List.countP_nil, isStoppedEv]
        · simp [List.countP_cons, List.countP_nil, isTerminalEv]
      · rw [stop_active _ (by exact hact)]
        refine ⟨rfl, rfl, ?_, Or.inr ⟨_, rfl, hnotin, ?_⟩,
          Or.inr ⟨rfl, ?_, ?_⟩⟩
        · intro h; cases h
        · simp [List.countP_cons, List.countP_nil, List.countP_append,
            isExecEv]
        · simp [List.countP_cons, List.countP_nil, List.countP_append,
            isStoppedEv]
        · simp [List.countP_cons, List.countP_nil, List.countP_append,
            isTerminalEv]

end WorkflowsProof

namespace WorkflowsProof

/-- Behaviour of the keyword-scan loop from an active state: same
guarantees as a single `executeChainAction`, since at most one entry's
action runs per scan and a position-map update changes no other field. -/
theorem scanKeywordMap_spec (now : Nat) (send : Nat → Bool) :
    ∀ (entries : List (JStr × ChainStage × Nat)) (s : MState),
      s.isActive = true →
      (scanKeywordMap now send s entries).1.startTime = s.startTime ∧
      (scanKeywordMap now send s entries).1.pollCount = s.pollCount ∧
      ((scanKeywordMap now send s entries).1.isActive = true →
        (scanKeywordMap now send s entries).1.interval = s.interval) ∧
      (((scanKeywordMap now send s entries).1.executedChains =
          s.executedChains ∧
        List.countP isExecEv (scanKeywordMap now send s entries).2 = 0) ∨
       (∃ rec, (scanKeywordMap now send s entries).1.executedChains =
          s.executedChains ++ [rec] ∧
        execKey rec ∉ s.executedChains.map execKey ∧
        List.countP isExecEv (scanKeywordMap now send s entries).2 = 1)) ∧
      (((scanKeywordMap now send s entries).1.isActive = true ∧
        List.countP isStoppedEv (scanKeywordMap now send s entries).2 = 0 ∧
        List.countP isTerminalEv (scanKeywordMap now send s entries).2 =
          0) ∨
       ((scanKeywordMap now send s entries).1.isActive = false ∧
        List.countP isStoppedEv (scanKeywordMap now send s entries).2 = 1 ∧
        List.countP isTerminalEv (scanKeywordMap now send s entries).2 =
          1)) := by
  intro entries
  induction entries with
  | nil =>
    intro s hact
    exact ⟨rfl, rfl, fun _ => rfl, Or.inl ⟨rfl, rfl⟩,
      Or.inl ⟨hact, rfl, rfl⟩⟩
  | cons ent rest ih =>
    intro s hact
    obtain ⟨kw, entry⟩ := ent
    unfold scanKeywordMap
    dsimp only
    split
    · exact executeChainAction_spec _ now send entry (by exact hact)
    · exact ih s hact

/-- Behaviour of one `checkOutput()` call: a no-op on an inactive monitor;
from an active monitor it preserves `startTime`, increments `pollCount`
once, preserves `interval` while the monitor stays active, appends at most
one new non-duplicate execution record (with exactly one matching
`chain_executed` event), and either keeps the monitor active with no
`stopped`/terminal event or deactivates it with exactly one `stopped` and
exactly one terminal event. -/
theorem checkOutput_spec (s : MState) (now : Nat) (readRes : Option JStr)
    (send : Nat → Bool) :
    (s.isActive = false →
      checkOutput s now readRes send = ⟨s, [], false⟩) ∧
    (s.isActive = true →
      (checkOutput s now readRes send).state.startTime = s.startTime ∧
      (checkOutput s now readRes send).state.pollCount = s.pollCount + 1 ∧
      ((checkOutput s now readRes send).state.isActive = true →
        (checkOutput s now readRes send).state.interval = s.interval) ∧
      (((checkOutput s now readRes send).state.executedChains =
          s.executedChains ∧
        List.countP isExecEv (checkOutput s now readRes send).events =
          0) ∨
       (∃ rec, (checkOutput s now readRes send).state.executedChains =
          s.executedChains ++ [rec] ∧
        execKey rec ∉ s.executedChains.map execKey ∧
        List.countP isExecEv (checkOutput s now readRes send).events =
          1)) ∧
      (((checkOutput s now readRes send).state.isActive = true ∧
        List.countP isStoppedEv (checkOutput s now readRes send).events =
          0 ∧
        List.countP isTerminalEv (checkOutput s now readRes send).events =
          0) ∨
       ((checkOutput s now readRes send).state.isActive = false ∧
        List.countP isStoppedEv (checkOutput s now readRes send).events =
          1 ∧
        List.countP isTerminalEv (checkOutput s now readRes send).events =
          1))) := by
  constructor
  · intro hinact
    unfold checkOutput
    rw [hinact]
    rfl
  · intro hact
    unfold checkOutput
    rw [hact]
    dsimp only
    split
    · next h => simp at h
    · split
      · rw [stop_active _ (by rfl)]
        refine ⟨rfl, rfl, ?_, Or.inl ⟨rfl, ?_⟩, Or.inr ⟨rfl, ?_, ?_⟩⟩
        · intro h; cases h
        · simp [List.countP_cons, List.countP_nil, List.countP_append,
            isExecEv]
        · simp [List.countP_cons, List.countP_nil, List.countP_append,
            isStoppedEv]
        · simp [List.countP_cons, List.countP_nil, List.countP_append,
            isTerminalEv]
      · split
        · exact ⟨rfl, rfl, fun _ => rfl, Or.inl ⟨rfl, rfl⟩,
            Or.inl ⟨rfl, rfl, rfl⟩⟩
        · exact scanKeywordMap_spec now send _ _ (by rfl)

end WorkflowsProof

namespace WorkflowsProof

/-- Claim C6 (amended): a scheduled poll whose read fails (before the
timeout budget is exhausted) leaves the monitor ACTIVE with only its poll
counter incremented — no dispatch happens, no terminal transition occurs —
and emits exactly one `error` event. -/
theorem c6_read_failure_keeps_active (s : MState) (now : Nat)
    (send : Nat → Bool) (hact : s.isActive = true)
    (htime : now - s.startTime.getD 0 ≤ s.timeout) :
    checkOutput s now none send =
      ⟨{s with pollCount := s.pollCount + 1}, [], true⟩ ∧
    runStep s (Step.pollStep ⟨now, none, send⟩) =
      ({s with pollCount := s.pollCount + 1}, [MEvent.errorEv]) := by
  have h1 : checkOutput s now none send =
      ⟨{s with pollCount := s.pollCount + 1}, [], true⟩ := by
    unfold checkOutput
    rw [hact]
    dsimp only
    split
    · next h => simp at h
    · split
      · next h => exfalso; omega
      · rfl
  refine ⟨h1, ?_⟩
  show (let o := checkOutput s now none send
    (o.state, o.events ++ (if o.threw then [MEvent.errorEv] else []))) =
    ({s with pollCount := s.pollCount + 1}, [MEvent.errorEv])
  rw [h1]
  rfl

/-- Claim C6 witness: a concrete active monitor, polled at time 5 with a
failing read, stays active with one more poll counted and exactly one
`error` event. -/
theorem c6_witness :
    runStep sActiveSample (Step.pollStep ⟨5, none, fun _ => false⟩) =
      ({sActiveSample with pollCount := sActiveSample.pollCount + 1},
       [MEvent.errorEv]) :=
  (c6_read_failure_keeps_active sActiveSample 5 (fun _ => false)
    (by decide) (by decide)).2

/-- Claim C6 counterexample: the immediate poll performed inside `start()`
swallows a read failure with `.catch(console.error)` (part_002 line 113):
this run's only poll fails its read, the monitor stays ACTIVE, yet no
`error` event is emitted — the claim's "surfaces an error event" does not
hold for every failing poll cycle. -/
theorem c6_counterexample :
    (runSteps s0sample
      [Step.startStep ⟨0, none, fun _ => false⟩]).2 = [MEvent.started] ∧
    (runSteps s0sample
      [Step.startStep ⟨0, none, fun _ => false⟩]).1.isActive = true ∧
    (runSteps s0sample
      [Step.startStep ⟨0, none, fun _ => false⟩]).1.pollCount = 1 := by
  decide

/-- Claim C8 (amended): calling `start()` while ACTIVE is a
warning-logged no-op — it raises nothing, changes nothing and emits
nothing; in every other state `start()` records `startTime`, transitions
to ACTIVE, installs the recurring poll timer at `pollInterval` (still
installed whenever the immediate poll leaves the monitor active), emits
`started` first, and performs one immediate poll. -/
theorem c8_start_behaviour (s : MState) (inp : PollInput) :
    (s.isActive = true → start s inp = (s, [])) ∧
    (s.isActive = false →
      (start s inp).1.startTime = some inp.now ∧
      (start s inp).2.head? = some MEvent.started ∧
      (start s inp).1.pollCount = s.pollCount + 1 ∧
      ((start s inp).1.isActive = true →
        (start s inp).1.interval = some s.pollInterval)) := by
  constructor
  · intro hact
    unfold start
    rw [hact]
    rfl
  · intro hinact
    unfold start
    rw [hinact]
    dsimp only
    have hspec := (checkOutput_spec (startedState s inp.now)
      inp.now inp.readRes inp.send).2 rfl
    refine ⟨hspec.1, rfl, hspec.2.1, ?_⟩
    intro h
    exact hspec.2.2.1 h

/-- Claim C8 (amended) witness: starting the concrete idle monitor records
the start time, emits `started` first, performs the immediate poll, and
leaves the timer installed at the poll interval. -/
theorem c8_witness :
    (start s0sample ⟨3, some [], fun _ => false⟩).1.startTime = some 3 ∧
    (start s0sample ⟨3, some [], fun _ => false⟩).2.head? =
      some MEvent.started ∧
    (start s0sample ⟨3, some [], fun _ => false⟩).1.pollCount =
      s0sample.pollCount + 1 ∧
    ((start s0sample ⟨3, some [], fun _ => false⟩).1.isActive = true →
      (start s0sample ⟨3, some [], fun _ => false⟩).1.interval =
        some s0sample.pollInterval) :=
  (c8_start_behaviour s0sample ⟨3, some [], fun _ => false⟩).2 (by decide)

/-- Claim C8 counterexample: calling `start()` on an already-ACTIVE
monitor does not fail with any error — the source has no throw path there
(part_002 lines 90-93 log a warning and return) — it returns with the
state unchanged and no event emitted. -/
theorem c8_counterexample :
    start sActiveSample ⟨7, some [], fun _ => false⟩ =
      (sActiveSample, []) := by
  rfl

/-- A non-start step on an inactive monitor does nothing. -/
theorem runStep_inactive (s : MState) (st : Step)
    (hns : noStartStep st = true) (hinact : s.isActive = false) :
    runStep s st = (s, []) := by
  cases st with
  | startStep inp => simp [noStartStep] at hns
  | pollStep inp =>
    show (let o := checkOutput s inp.now inp.readRes inp.send
      (o.state, o.events ++ (if o.threw then [MEvent.errorEv] else []))) =
      (s, [])
    rw [(checkOutput_spec s inp.now inp.readRes inp.send).1 hinact]
    rfl
  | stopStep => exact stop_inactive s hinact

/-- Event counting is unaffected by the wrapper's optional trailing
`error` event. -/
theorem countP_error_tail (evs : List MEvent) (b : Bool) :
    List.countP isStoppedEv
        (evs ++ (if b then [MEvent.errorEv] else [])) =
      List.countP isStoppedEv evs ∧
    List.countP isTerminalEv
        (evs ++ (if b then [MEvent.errorEv] else [])) =
      List.countP isTerminalEv evs ∧
    List.countP isExecEv
        (evs ++ (if b then [MEvent.errorEv] else [])) =
      List.countP isExecEv evs := by
  cases b <;>
    simp [List.countP_append, List.countP_cons, List.countP_nil,
      isStoppedEv, isTerminalEv, isExecEv]

/-- Every step preserves the executed-stage discipline: the log either
stays unchanged with no `chain_executed` event, or grows by one record
whose `(keyword, chainIndex)` pair is new, with exactly one
`chain_executed` event. -/
theorem runStep_exec_discipline (s : MState) (st : Step) :
    ((runStep s st).1.executedChains = s.executedChains ∧
     List.countP isExecEv (runStep s st).2 = 0) ∨
    (∃ rec, (runStep s st).1.executedChains = s.executedChains ++ [rec] ∧
     execKey rec ∉ s.executedChains.map execKey ∧
     List.countP isExecEv (runStep s st).2 = 1) := by
  cases st with
  | startStep inp =>
    have hdef : runStep s (Step.startStep inp) = start s inp := rfl
    rw [hdef]
    by_cases hact : s.isActive = true
    · have hse : start s inp = (s, []) := by
        unfold start
        rw [hact]
        rfl
      rw [hse]
      exact Or.inl ⟨rfl, rfl⟩
    · have hinact : s.isActive = false := by
        cases h : s.isActive
        · rfl
        · exact absurd h hact
      have hsd : start s inp =
          ((checkOutput (startedState s inp.now)
              inp.now inp.readRes inp.send).state,
           MEvent.started ::
             (checkOutput (startedState s inp.now)
               inp.now inp.readRes inp.send).events) := by
        unfold start startedState
        rw [hinact]
        rfl
      rw [hsd]
      have hspec := (checkOutput_spec (startedState s inp.now)
        inp.now inp.readRes inp.send).2 rfl
      rcases hspec.2.2.2.1 with ⟨he, hc⟩ | ⟨rec, he, hn, hc⟩
      · left
        refine ⟨he, ?_⟩
        rw [List.countP_cons_of_neg _ _ (by simp [isExecEv])]
        exact hc
      · right
        refine ⟨rec, he, hn, ?_⟩
        rw [List.countP_cons_of_neg _ _ (by simp [isExecEv])]
        exact hc
  | pollStep inp =>
    have hdef : runStep s (Step.pollStep inp) =
        ((checkOutput s inp.now inp.readRes inp.send).state,
         (checkOutput s inp.now inp.readRes inp.send).events ++
           (if (checkOutput s inp.now inp.readRes inp.send).threw then
             [MEvent.errorEv] else [])) := rfl
    rw [hdef]
    by_cases hact : s.isActive = true
    · have hspec := (checkOutput_spec s inp.now inp.readRes inp.send).2 hact
      have hct := countP_error_tail
        (checkOutput s inp.now inp.readRes inp.send).events
        (checkOutput s inp.now inp.readRes inp.send).threw
      rcases hspec.2.2.2.1 with ⟨he, hc⟩ | ⟨rec, he, hn, hc⟩
      · exact Or.inl ⟨he, by rw [hct.2.2, hc]⟩
      · exact Or.inr ⟨rec, he, hn, by rw [hct.2.2, hc]⟩
    · have hinact : s.isActive = false := by
        cases h : s.isActive
        · rfl
        · exact absurd h hact
      rw [(checkOutput_spec s inp.now inp.readRes inp.send).1 hinact]
      exact Or.inl ⟨rfl, rfl⟩
  | stopStep =>
    have hdef : runStep s Step.stopStep = stop s := rfl
    rw [hdef]
    by_cases hact : s.isActive = true
    · rw [stop_active s hact]
      exact Or.inl ⟨rfl, by simp [List.countP_cons, List.countP_nil,
        isExecEv]⟩
    · have hinact : s.isActive = false := by
        cases h : s.isActive
        · rfl
        · exact absurd h hact
      rw [stop_inactive s hinact]
      exact Or.inl ⟨rfl, rfl⟩

end WorkflowsProof

namespace WorkflowsProof

/-- A run's steps applied to an inactive monitor (with no `start()` call
among them) change nothing and emit nothing. -/
theorem runSteps_inactive_frozen :
    ∀ (steps : List Step) (s : MState), steps.all noStartStep = true →
      s.isActive = false → runSteps s steps = (s, []) := by
  intro steps
  induction steps with
  | nil => intro s _ _; rfl
  | cons st rest ih =>
    intro s hall hinact
    rw [List.all_cons, Bool.and_eq_true] at hall
    have hconseq : runSteps s (st :: rest) =
        ((runSteps (runStep s st).1 rest).1,
         (runStep s st).2 ++ (runSteps (runStep s st).1 rest).2) := rfl
    rw [hconseq, runStep_inactive s st hall.1 hinact]
    dsimp only
    rw [ih s hall.2 hinact]
    rfl

/-- Activity accounting for one non-start step from an active state: the
step either keeps the monitor active, emitting no `stopped` and no
terminal event, or deactivates it, emitting exactly one `stopped` and at
most one terminal event (exactly one when deactivation came from a poll,
none when it came from an external `stop()`). -/
theorem runStep_activity (s : MState) (st : Step)
    (hns : noStartStep st = true) (hact : s.isActive = true) :
    ((runStep s st).1.isActive = true ∧
     List.countP isStoppedEv (runStep s st).2 = 0 ∧
     List.countP isTerminalEv (runStep s st).2 = 0) ∨
    ((runStep s st).1.isActive = false ∧
     List.countP isStoppedEv (runStep s st).2 = 1 ∧
     List.countP isTerminalEv (runStep s st).2 ≤ 1) := by
  cases st with
  | startStep inp => simp [noStartStep] at hns
  | pollStep inp =>
    have hdef : runStep s (Step.pollStep inp) =
        ((checkOutput s inp.now inp.readRes inp.send).state,
         (checkOutput s inp.now inp.readRes inp.send).events ++
           (if (checkOutput s inp.now inp.readRes inp.send).threw then
             [MEvent.errorEv] else [])) := rfl
    rw [hdef]
    have hspec := (checkOutput_spec s inp.now inp.readRes inp.send).2 hact
    have hct := countP_error_tail
      (checkOutput s inp.now inp.readRes inp.send).events
      (checkOutput s inp.now inp.readRes inp.send).threw
    rcases hspec.2.2.2.2 with ⟨h1, h2, h3⟩ | ⟨h1, h2, h3⟩
    · left
      exact ⟨h1, by rw [hct.1, h2], by rw [hct.2.1, h3]⟩
    · right
      refine ⟨h1, by rw [hct.1, h2], ?_⟩
      rw [hct.2.1, h3]
  | stopStep =>
    have hdef : runStep s Step.stopStep = stop s := rfl
    rw [hdef, stop_active s hact]
    right
    refine ⟨rfl, ?_, ?_⟩
    · simp [List.countP_cons, List.countP_nil, isStoppedEv]
    · simp [List.countP_cons, List.countP_nil, isTerminalEv]

/-- Activity accounting for a whole run of non-start steps from an active
state. -/
theorem runSteps_activity :
    ∀ (steps : List Step) (s : MState), steps.all noStartStep = true →
      s.isActive = true →
      (((runSteps s steps).1.isActive = true ∧
        List.countP isStoppedEv (runSteps s steps).2 = 0 ∧
        List.countP isTerminalEv (runSteps s steps).2 = 0) ∨
       ((runSteps s steps).1.isActive = false ∧
        List.countP isStoppedEv (runSteps s steps).2 = 1 ∧
        List.countP isTerminalEv (runSteps s steps).2 ≤ 1)) := by
  intro steps
  induction steps with
  | nil => intro s _ hact; left; exact ⟨hact, rfl, rfl⟩
  | cons st rest ih =>
    intro s hall hact
    rw [List.all_cons, Bool.and_eq_true] at hall
    have hconseq : runSteps s (st :: rest) =
        ((runSteps (runStep s st).1 rest).1,
         (runStep s st).2 ++ (runSteps (runStep s st).1 rest).2) := rfl
    rw [hconseq]
    rcases runStep_activity s st hall.1 hact with ⟨h1, h2, h3⟩ |
      ⟨h1, h2, h3⟩
    · rcases ih (runStep s st).1 hall.2 h1 with ⟨g1, g2, g3⟩ |
        ⟨g1, g2, g3⟩
      · left
        exact ⟨g1, by rw [List.countP_append, h2, g2],
          by rw [List.countP_append, h3, g3]⟩
      · right
        refine ⟨g1, by rw [List.countP_append, h2, g2], ?_⟩
        rw [List.countP_append, h3, Nat.zero_add]
        exact g3
    · have hfroz := runSteps_inactive_frozen rest (runStep s st).1
        hall.2 h1
      rw [hfroz]
      dsimp only
      right
      refine ⟨h1, ?_, ?_⟩
      · rw [List.append_nil]
        exact h2
      · rw [List.append_nil]
        exact h3

/-- A successfully constructed monitor starts out inactive with an empty
execution log. -/
theorem mkMonitor_ok_fields (config : MonitorConfig) (s0 : MState)
    (h : mkMonitor config = Except.ok s0) :
    s0.isActive = false ∧ s0.executedChains = [] := by
  unfold mkMonitor at h
  split at h
  · cases h
  · split at h
    · cases h
    · rw [Except.ok.injEq] at h
      rw [← h]
      exact ⟨rfl, rfl⟩

/-- Executed-stage discipline over a whole run: distinctness of
`(keyword, chainIndex)` pairs is preserved, and every appended record is
matched by exactly one `chain_executed` event. -/
theorem runSteps_exec_discipline :
    ∀ (steps : List Step) (s : MState),
      ((s.executedChains.map execKey).Nodup →
        ((runSteps s steps).1.executedChains.map execKey).Nodup) ∧
      s.executedChains.length +
          List.countP isExecEv (runSteps s steps).2 =
        (runSteps s steps).1.executedChains.length := by
  intro steps
  induction steps with
  | nil => intro s; exact ⟨fun h => h, rfl⟩
  | cons st rest ih =>
    intro s
    have hconseq : runSteps s (st :: rest) =
        ((runSteps (runStep s st).1 rest).1,
         (runStep s st).2 ++ (runSteps (runStep s st).1 rest).2) := rfl
    rw [hconseq]
    dsimp only
    obtain ⟨ihn, ihc⟩ := ih (runStep s st).1
    rcases runStep_exec_discipline s st with ⟨he, hc⟩ | ⟨rec, he, hn, hc⟩
    · constructor
      · intro hd
        apply ihn
        rw [he]
        exact hd
      · rw [List.countP_append, hc, Nat.zero_add]
        rw [he] at ihc
        exact ihc
    · constructor
      · intro hd
        apply ihn
        rw [he, List.map_append]
        refine List.Nodup.append hd (List.nodup_singleton _) ?_
        intro a ha hb
        rw [show List.map execKey [rec] = [execKey rec] from rfl,
          List.mem_singleton] at hb
        exact hn (hb ▸ ha)
      · have hlen : (runStep s st).1.executedChains.length =
            s.executedChains.length + 1 := by
          rw [he, List.length_append]
          rfl
        rw [List.countP_append, hc]
        omega

/-- Claim C2 (amended): over every run of the monitor, no
`(keyword, chainIndex)` pair is ever executed twice — the duplicate-
execution guard keeps the executed-stage log free of repeats — and each
recorded execution is announced by exactly one `chain_executed` event.
(Stage executions need not follow increasing stage order: each poll scans
every chain keyword and acts on the first newly detected one, which may
belong to a later stage than the currently awaited one, as the
counterexample run shows.) -/
theorem c2_no_duplicate_executions (config : MonitorConfig) (s0 : MState)
    (steps : List Step) (hok : mkMonitor config = Except.ok s0) :
    ((runSteps s0 steps).1.executedChains.map execKey).Nodup ∧
    List.countP isExecEv (runSteps s0 steps).2 =
      (runSteps s0 steps).1.executedChains.length := by
  obtain ⟨hA, hE⟩ := mkMonitor_ok_fields config s0 hok
  obtain ⟨hn, hc⟩ := runSteps_exec_discipline steps s0
  constructor
  · apply hn
    rw [hE]
    exact List.nodup_nil
  · rw [hE] at hc
    simpa using hc

/-- Claim C2 counterexample: awaiting stage 0 (keyword `"A"`), a buffer
showing only the *later* keyword `"B"` makes the monitor execute stage 1
first — the first and only execution has chain index 1 while the awaited
stage 0 never ran, so executions are not in strictly increasing order
from the awaited stage and stage 0 is skipped. -/
theorem c2_counterexample :
    mkMonitor sampleConfig = Except.ok s0sample ∧
    s0sample.currentChainIndex = 0 ∧
    s0sample.currentKeyword = some ("A".toList) ∧
    (runSteps s0sample
      [Step.startStep ⟨0, some ("B".toList), fun _ => true⟩]).1.executedChains.map
      execKey = [("B".toList, 1)] ∧
    (runSteps s0sample
      [Step.startStep ⟨0, some ("B".toList), fun _ => true⟩]).2 =
      [MEvent.started,
       MEvent.chain_executed ("B".toList) ("ib".toList) 1,
       MEvent.chain_complete 1, MEvent.stopped] :=
  ⟨rfl, rfl, rfl, by decide, by decide⟩

/-- Claim C2 (amended) witness at a concrete one-poll run that executes
stage 0. -/
theorem c2_witness :
    ((runSteps s0sample
        [Step.startStep ⟨0, some ("A".toList), fun _ => true⟩]).1.executedChains.map
        execKey).Nodup ∧
    List.countP isExecEv
        (runSteps s0sample
          [Step.startStep ⟨0, some ("A".toList), fun _ => true⟩]).2 =
      (runSteps s0sample
        [Step.startStep ⟨0, some ("A".toList),
          fun _ => true⟩]).1.executedChains.length :=
  c2_no_duplicate_executions sampleConfig s0sample _ rfl

/-- Terminal-outcome reporting under the cooperative scheduling spec §5
mandates (each poll tick, including its retry waits, runs to completion
before the next is considered): in such a run — one `start()`, then any
sequence of scheduled polls and external `stop()` calls — at most one
terminal-outcome event (`chain_complete`, `chain_failed`, `timeout`) is
emitted; if one is emitted the monitor has left the ACTIVE state; and the
`stopped` event is emitted exactly once when the run deactivates and
never otherwise.  The source does not enforce this serialization (no
reentrancy guard around `setInterval`'s unawaited `checkOutput()` calls),
and with overlapping polls the property fails on the source: see
`c5_failing_input_trace`. -/
theorem serialized_terminal_outcome_reporting (config : MonitorConfig)
    (s0 : MState) (inp : PollInput) (rest : List Step)
    (hok : mkMonitor config = Except.ok s0)
    (hns : rest.all noStartStep = true) :
    List.countP isTerminalEv
        (runSteps s0 (Step.startStep inp :: rest)).2 ≤ 1 ∧
    (List.countP isTerminalEv
        (runSteps s0 (Step.startStep inp :: rest)).2 = 1 →
      (runSteps s0 (Step.startStep inp :: rest)).1.isActive = false) ∧
    List.countP isStoppedEv (runSteps s0 (Step.startStep inp :: rest)).2 =
      (if (runSteps s0 (Step.startStep inp :: rest)).1.isActive = true
        then 0 else 1) := by
  obtain ⟨hA, hE⟩ := mkMonitor_ok_fields config s0 hok
  have hsd : runStep s0 (Step.startStep inp) =
      ((checkOutput (startedState s0 inp.now)
          inp.now inp.readRes inp.send).state,
       MEvent.started ::
         (checkOutput (startedState s0 inp.now)
           inp.now inp.readRes inp.send).events) := by
    show start s0 inp = _
    unfold start startedState
    rw [hA]
    rfl
  have hconseq : runSteps s0 (Step.startStep inp :: rest) =
      ((runSteps (runStep s0 (Step.startStep inp)).1 rest).1,
       (runStep s0 (Step.startStep inp)).2 ++
         (runSteps (runStep s0 (Step.startStep inp)).1 rest).2) := rfl
  rw [hconseq, hsd]
  dsimp only
  have hspec := (checkOutput_spec (startedState s0 inp.now)
    inp.now inp.readRes inp.send).2 rfl
  have hscons : ∀ evs : List MEvent,
      List.countP isStoppedEv (MEvent.started :: evs) =
        List.countP isStoppedEv evs :=
    fun evs => List.countP_cons_of_neg _ _ (by simp [isStoppedEv])
  have htcons : ∀ evs : List MEvent,
      List.countP isTerminalEv (MEvent.started :: evs) =
        List.countP isTerminalEv evs :=
    fun evs => List.countP_cons_of_neg _ _ (by simp [isTerminalEv])
  rcases hspec.2.2.2.2 with ⟨h1, h2, h3⟩ | ⟨h1, h2, h3⟩
  · rcases runSteps_activity rest _ hns h1 with ⟨g1, g2, g3⟩ |
      ⟨g1, g2, g3⟩
    · refine ⟨?_, ?_, ?_⟩
      · rw [List.countP_append, htcons, h3, g3]
        decide
      · intro habs
        rw [List.countP_append, htcons, h3, g3] at habs
        exact absurd habs (by decide)
      · rw [List.countP_append, hscons, h2, g2, g1]
        rfl
    · refine ⟨?_, ?_, ?_⟩
      · rw [List.countP_append, htcons, h3, Nat.zero_add]
        exact g3
      · intro _
        exact g1
      · rw [List.countP_append, hscons, h2, g2, g1]
        rfl
  · have hfroz := runSteps_inactive_frozen rest _ hns h1
    rw [hfroz]
    dsimp only
    refine ⟨?_, ?_, ?_⟩
    · rw [List.append_nil, htcons, h3]
    · intro _
      exact h1
    · rw [List.append_nil, hscons, h2, h1]
      rfl

/-- Claim C5 failing input: the source can report two terminal outcomes
in one run.  With a poll suspended mid-dispatch awaiting a retry delay
(`sSuspended`), the next interval tick runs a full overlapping poll —
`setInterval` (part_002 lines 105-110) does not await the in-flight
`checkOutput()`, and nothing re-checks `isActive` after an await — which
detects the terminal stage `"B"`, emits `chain_complete` and stops the
monitor; when the suspended poll's retries then exhaust, its continuation
(part_002 lines 323-327) emits `chain_failed` anyway.  The run's event
trace — `started` and `chain_executed` from before the suspension, the
overlapping poll's events, then the resumed continuation's — carries two
terminal-outcome events, where the claim (and spec §5/§7, which mandate
poll mutual exclusion and exactly-once reporting) requires one. -/
theorem c5_failing_input_trace :
    (checkOutput sSuspended 10 (some ("\nB".toList))
      (fun _ => true)).events =
      [MEvent.chain_executed ("B".toList) ("ib".toList) 1,
       MEvent.chain_complete 2, MEvent.stopped] ∧
    (checkOutput sSuspended 10 (some ("\nB".toList))
      (fun _ => true)).state.isActive = false ∧
    (executeChainActionFailureResume
        (checkOutput sSuspended 10 (some ("\nB".toList))
          (fun _ => true)).state
        ("A".toList) ("ia".toList) 0).2 =
      [MEvent.chain_failed ("A".toList) ("ia".toList) 0] ∧
    List.countP isTerminalEv
        (MEvent.started ::
          MEvent.chain_executed ("A".toList) ("ia".toList) 0 ::
          ((checkOutput sSuspended 10 (some ("\nB".toList))
             (fun _ => true)).events ++
           (executeChainActionFailureResume
             (checkOutput sSuspended 10 (some ("\nB".toList))
               (fun _ => true)).state
             ("A".toList) ("ia".toList) 0).2)) = 2 := by
  decide

end WorkflowsProof
